import Mathlib

/-!
Shallow embedding of the transaction engine (src/account.rs, src/transaction.rs,
src/engine.rs) for verification of its specification.

Modelling conventions:
* Rust `f64` amounts are carried as the exact rational values they denote.
  The control-flow claims are arithmetic-independent.  For the claims whose
  truth depends on rounding, `roundF64` models IEEE-754 binary64 rounding
  (round to nearest, ties to even) and `Account.depositF`/… and `EngineF`
  are the same source functions with every balance mutation performed at
  that precision; the exact-rational variants (`Account.deposit`/… and
  `Engine`) are the fixed-point idealization that spec §5 prescribes.
* `u16` client ids and `u32` transaction ids are modelled as `Nat`; no claim
  involves integer overflow.
* `HashMap<u16, Account>` (AccountsRepository) is modelled as a total function
  `ClientId → Account` whose default value is `Account.new c`; `get_or_create`
  is then plain lookup.  Account *existence* only influences the display
  collaborator, which is out of scope.
* `HashMap<u32, Transaction>` (TransactionLedger) is modelled as
  `TxId → Option LedgerEntry`.  The Rust `Transaction.is_dispute` field is
  `#[serde(skip_deserializing)]` and `Transaction::new` sets it to `false`, so
  every transaction entering the engine carries `is_dispute = false`; the flag
  is therefore modelled on the ledger entry, set to `false` on insertion.
* A Rust panic (`Option::unwrap` on `None` in `Transaction::amount`,
  `TransactionLedger::dispute_tx` / `undispute_tx`) is modelled as `none` in an
  `Option`-valued step function.
-/

namespace TxEngine

abbrev ClientId := Nat
abbrev TxId := Nat

/-- `Type` in src/transaction.rs (`Deposit | Withdrawal | Dispute | Resolve | Chargeback`). -/
inductive TxType where
  | deposit
  | withdrawal
  | dispute
  | resolve
  | chargeback
deriving DecidableEq, Repr

/-- `Transaction` in src/transaction.rs.  `amount` is `Option<f64>` with
`#[serde(default)]`, hence `Option ℚ` here.  The private `is_dispute` field is
always `false` on transactions entering the engine (skip_deserializing /
`Transaction::new`), so it lives on the ledger entry instead. -/
structure Transaction where
  type : TxType
  account_id : ClientId
  id : TxId
  amount : Option ℚ
deriving DecidableEq, Repr

/-- `Error` in src/account.rs. -/
inductive Error where
  | insufficientFunds
  | lockedAccount
deriving DecidableEq, Repr

/-- `Account` in src/account.rs. -/
structure Account where
  client_id : ClientId
  available_balance : ℚ
  held_balance : ℚ
  total_balance : ℚ
  locked : Bool
deriving DecidableEq, Repr

namespace Account

/-- `Account::new`. -/
def new (client_id : ClientId) : Account :=
  { client_id := client_id
    available_balance := 0
    held_balance := 0
    total_balance := 0
    locked := false }

/-- `Account::is_locked`. -/
def is_locked (a : Account) : Except Error Unit :=
  if a.locked then .error .lockedAccount else .ok ()

/-- `Account::has_sufficient_funds`: errors iff `amount > available_balance`. -/
def has_sufficient_funds (a : Account) (amount : ℚ) : Except Error Unit :=
  if a.available_balance < amount then .error .insufficientFunds else .ok ()

/-- `Account::has_sufficient_hold_balande` (sic): errors iff `amount > held_balance`. -/
def has_sufficient_hold_balande (a : Account) (amount : ℚ) : Except Error Unit :=
  if a.held_balance < amount then .error .insufficientFunds else .ok ()

/-- `Account::deposit`: lock check, then `available += amount`, `total += amount`. -/
def deposit (a : Account) (amount : ℚ) : Except Error Account :=
  match a.is_locked with
  | .error e => .error e
  | .ok _ =>
      .ok { a with
              available_balance := a.available_balance + amount
              total_balance := a.total_balance + amount }

/-- `Account::withdrawal`: lock check, funds check, then
`available -= amount`, `total -= amount`. -/
def withdrawal (a : Account) (amount : ℚ) : Except Error Account :=
  match a.is_locked with
  | .error e => .error e
  | .ok _ =>
      match a.has_sufficient_funds amount with
      | .error e => .error e
      | .ok _ =>
          .ok { a with
                  available_balance := a.available_balance - amount
                  total_balance := a.total_balance - amount }

/-- `Account::dispute`: lock check, funds check, then
`available -= amount`, `held += amount`. -/
def dispute (a : Account) (amount : ℚ) : Except Error Account :=
  match a.is_locked with
  | .error e => .error e
  | .ok _ =>
      match a.has_sufficient_funds amount with
      | .error e => .error e
      | .ok _ =>
          .ok { a with
                  available_balance := a.available_balance - amount
                  held_balance := a.held_balance + amount }

/-- `Account::resolve`: lock check, held-funds check, then
`held -= amount`, `available += amount`. -/
def resolve (a : Account) (amount : ℚ) : Except Error Account :=
  match a.is_locked with
  | .error e => .error e
  | .ok _ =>
      match a.has_sufficient_hold_balande amount with
      | .error e => .error e
      | .ok _ =>
          .ok { a with
                  held_balance := a.held_balance - amount
                  available_balance := a.available_balance + amount }

/-- `Account::chargeback`: lock check, held-funds check, then
`held -= amount`, `total -= amount`, `locked = true`. -/
def chargeback (a : Account) (amount : ℚ) : Except Error Account :=
  match a.is_locked with
  | .error e => .error e
  | .ok _ =>
      match a.has_sufficient_hold_balande amount with
      | .error e => .error e
      | .ok _ =>
          .ok { a with
                  held_balance := a.held_balance - amount
                  total_balance := a.total_balance - amount
                  locked := true }

end Account

/-- A ledger entry: the first transaction recorded under an id, together with
its mutable `is_dispute` flag (`false` on insertion, see module docstring). -/
structure LedgerEntry where
  tx : Transaction
  is_dispute : Bool
deriving DecidableEq, Repr

/-- `TransactionLedger` in src/transaction.rs: `HashMap<u32, Transaction>`
modelled as a partial map. -/
def TransactionLedger : Type := TxId → Option LedgerEntry

namespace TransactionLedger

/-- `TransactionLedger::new`. -/
def new : TransactionLedger := fun _ => none

/-- `TransactionLedger::get`. -/
def get (l : TransactionLedger) (tx_id : TxId) : Option LedgerEntry := l tx_id

/-- `TransactionLedger::append`: `entry(tx.id).or_insert(*tx)` — first-write-wins. -/
def append (l : TransactionLedger) (tx : Transaction) : TransactionLedger :=
  match l tx.id with
  | some _ => l
  | none => fun i => if i = tx.id then some { tx := tx, is_dispute := false } else l i

/-- `TransactionLedger::dispute_tx`: `get_mut(&tx_id)` then `unwrap()` — the
unwrap panics on a missing id, modelled as `none`. -/
def dispute_tx (l : TransactionLedger) (tx_id : TxId) : Option TransactionLedger :=
  match l tx_id with
  | none => none
  | some e => some (fun i => if i = tx_id then some { e with is_dispute := true } else l i)

/-- `TransactionLedger::undispute_tx`: same unwrap pattern, clears the flag. -/
def undispute_tx (l : TransactionLedger) (tx_id : TxId) : Option TransactionLedger :=
  match l tx_id with
  | none => none
  | some e => some (fun i => if i = tx_id then some { e with is_dispute := false } else l i)

end TransactionLedger

/-- `AccountsRepository` in src/account.rs: `HashMap<u16, Account>` with
`entry(id).or_insert_with(|| Account::new(id))`, modelled as a total map whose
default is `Account.new c`. -/
def AccountsRepository : Type := ClientId → Account

namespace AccountsRepository

/-- `AccountsRepository::new` / `default`. -/
def new : AccountsRepository := fun c => Account.new c

/-- `AccountsRepository::get_or_create` (pure lookup under the total-map model). -/
def get_or_create (r : AccountsRepository) (id : ClientId) : Account := r id

/-- Store back a mutated account (in Rust the mutation happens in place
through the `&mut Account` returned by `get_or_create`). -/
def set (r : AccountsRepository) (id : ClientId) (a : Account) : AccountsRepository :=
  fun c => if c = id then a else r c

end AccountsRepository

/-- The engine's mutable state: the transaction ledger and the accounts
repository (`Engine` in src/engine.rs holds `&mut` references to both). -/
structure EngineState where
  tx_ledger : TransactionLedger
  accounts : AccountsRepository

namespace Engine

/-- `Engine::deposit`.  Rust evaluates `tx.amount()` (an unwrap, which panics
on `None`) only after the duplicate guard passed, at the call
`account.deposit(tx.amount())`; the panic is modelled as `none`. -/
def deposit (s : EngineState) (tx : Transaction) : Option EngineState :=
  match s.tx_ledger.get tx.id with
  | some _ => some s
  | none =>
      match tx.amount with
      | none => none
      | some amt =>
          match (s.accounts.get_or_create tx.account_id).deposit amt with
          | .error _ => some s
          | .ok a2 => some { s with accounts := s.accounts.set tx.account_id a2 }

/-- `Engine::withdrawal`: same structure as `deposit` with `Account::withdrawal`. -/
def withdrawal (s : EngineState) (tx : Transaction) : Option EngineState :=
  match s.tx_ledger.get tx.id with
  | some _ => some s
  | none =>
      match tx.amount with
      | none => none
      | some amt =>
          match (s.accounts.get_or_create tx.account_id).withdrawal amt with
          | .error _ => some s
          | .ok a2 => some { s with accounts := s.accounts.set tx.account_id a2 }

/-- `Engine::dispute`: on a recorded id, guarded by `old_tx.is_dispute` and
client match; on success of `Account::dispute` the stored record is marked
disputed.  `old_tx.amount()` is an unwrap (panic on `None`). -/
def dispute (s : EngineState) (tx : Transaction) : Option EngineState :=
  match s.tx_ledger.get tx.id with
  | none => some s
  | some old =>
      if old.is_dispute = true ∨
          (s.accounts.get_or_create tx.account_id).client_id ≠ old.tx.account_id then
        some s
      else
        match old.tx.amount with
        | none => none
        | some amt =>
            match (s.accounts.get_or_create tx.account_id).dispute amt with
            | .error _ => some s
            | .ok a2 =>
                match s.tx_ledger.dispute_tx tx.id with
                | none => none
                | some l2 =>
                    some { tx_ledger := l2, accounts := s.accounts.set tx.account_id a2 }

/-- `Engine::resolve`: applies only when the record is disputed and the client
ids match; on success the disputed flag is cleared. -/
def resolve (s : EngineState) (tx : Transaction) : Option EngineState :=
  match s.tx_ledger.get tx.id with
  | none => some s
  | some old =>
      if old.is_dispute = true ∧
          old.tx.account_id = (s.accounts.get_or_create tx.account_id).client_id then
        match old.tx.amount with
        | none => none
        | some amt =>
            match (s.accounts.get_or_create tx.account_id).resolve amt with
            | .error _ => some s
            | .ok a2 =>
                match s.tx_ledger.undispute_tx tx.id with
                | none => none
                | some l2 =>
                    some { tx_ledger := l2, accounts := s.accounts.set tx.account_id a2 }
      else some s

/-- `Engine::chargeback`: like `resolve` but calls `Account::chargeback` and
never touches the disputed flag. -/
def chargeback (s : EngineState) (tx : Transaction) : Option EngineState :=
  match s.tx_ledger.get tx.id with
  | none => some s
  | some old =>
      if old.is_dispute = true ∧
          old.tx.account_id = (s.accounts.get_or_create tx.account_id).client_id then
        match old.tx.amount with
        | none => none
        | some amt =>
            match (s.accounts.get_or_create tx.account_id).chargeback amt with
            | .error _ => some s
            | .ok a2 => some { s with accounts := s.accounts.set tx.account_id a2 }
      else some s

/-- The `match tx.r#type()` dispatch in the loop body of `Engine::process`. -/
def dispatch (s : EngineState) (tx : Transaction) : Option EngineState :=
  match tx.type with
  | .deposit => Engine.deposit s tx
  | .withdrawal => Engine.withdrawal s tx
  | .dispute => Engine.dispute s tx
  | .resolve => Engine.resolve s tx
  | .chargeback => Engine.chargeback s tx

/-- One iteration of the loop body of `Engine::process`: dispatch by kind,
then unconditionally `tx_ledger.append(tx)`. -/
def step (s : EngineState) (tx : Transaction) : Option EngineState :=
  match dispatch s tx with
  | none => none
  | some s2 => some { s2 with tx_ledger := s2.tx_ledger.append tx }

/-- `Engine::process`: sequential fold over the input transactions.
`none` propagates a panic. -/
def process (s : EngineState) : List Transaction → Option EngineState
  | [] => some s
  | tx :: rest =>
      match step s tx with
      | none => none
      | some s2 => process s2 rest

end Engine

/-- The state at the start of a run (`main`): empty ledger, empty repository. -/
def initState : EngineState :=
  { tx_ledger := TransactionLedger.new, accounts := AccountsRepository.new }

attribute [ext] Account

/-- The five public balance operations of `Account`, as a selector used to
quantify over "every operation" in the claims. -/
inductive AccountOp where
  | deposit
  | withdrawal
  | dispute
  | resolve
  | chargeback
deriving DecidableEq, Repr

/-- Dispatch an `AccountOp` to the corresponding method of `Account`. -/
def applyAccountOp : AccountOp → Account → ℚ → Except Error Account
  | .deposit, a, amt => a.deposit amt
  | .withdrawal, a, amt => a.withdrawal amt
  | .dispute, a, amt => a.dispute amt
  | .resolve, a, amt => a.resolve amt
  | .chargeback, a, amt => a.chargeback amt

/-- The account invariant of the spec: `total == available + held`, with
`available` and `held` non-negative. -/
def AccountInv (a : Account) : Prop :=
  a.total_balance = a.available_balance + a.held_balance ∧
    0 ≤ a.available_balance ∧ 0 ≤ a.held_balance

instance (a : Account) : Decidable (AccountInv a) := by
  unfold AccountInv; infer_instance

/-- Run a sequence of `Account` operations; a failing operation leaves the
account as it was (the Rust methods mutate only after all checks pass). -/
def runAccountOps (a : Account) : List (AccountOp × ℚ) → Account
  | [] => a
  | p :: rest =>
      runAccountOps
        (match applyAccountOp p.1 a p.2 with
          | .ok a2 => a2
          | .error _ => a)
        rest

/-- Remove from a stream every Deposit/Withdrawal whose id has already been
seen — either present in the ledger at the start (`seen`) or carried by any
earlier instruction of the stream (every processed instruction is appended to
the ledger, so every earlier id counts as seen). -/
def dedupe (seen : TxId → Bool) : List Transaction → List Transaction
  | [] => []
  | tx :: rest =>
      if (tx.type = TxType.deposit ∨ tx.type = TxType.withdrawal) ∧ seen tx.id = true then
        dedupe seen rest
      else
        tx :: dedupe (fun i => seen i || decide (i = tx.id)) rest

/-- A locked account, used to instantiate the locked-state claims. -/
def lockedAccount1 : Account :=
  { Account.new 1 with locked := true }

/-- Facts established by any successful run of a single dispatch function:
the set of recorded ids is unchanged, accounts other than the addressed one
are unchanged, every account's `client_id` is unchanged, the whole state is
unchanged when the addressed account is locked, and a currently-disputed
recorded entry is unchanged (for `resolve` the last point needs the addressed
account stored under its own id and the disputing client's account locked). -/
def DispatchFacts (s : EngineState) (tx : Transaction) (s1 : EngineState) : Prop :=
  (∀ i, ((s1.tx_ledger i).isSome = true ↔ (s.tx_ledger i).isSome = true)) ∧
    (∀ k, k ≠ tx.account_id → s1.accounts k = s.accounts k) ∧
    (∀ k, (s1.accounts k).client_id = (s.accounts k).client_id) ∧
    ((s.accounts tx.account_id).locked = true → s1 = s) ∧
    (∀ t e, s.tx_ledger t = some e → e.is_dispute = true →
      (s.accounts tx.account_id).client_id = tx.account_id →
      (s.accounts e.tx.account_id).locked = true →
      s1.tx_ledger t = some e)

/-- Facts established by one full iteration of the `process` loop (dispatch
followed by the unconditional `append`). -/
def StepFacts (s : EngineState) (tx : Transaction) (s1 : EngineState) : Prop :=
  (∀ i, ((s1.tx_ledger i).isSome = true ↔ ((s.tx_ledger i).isSome = true ∨ i = tx.id))) ∧
    (∀ k, (s1.accounts k).client_id = (s.accounts k).client_id) ∧
    (∀ c, (s.accounts c).locked = true → s1.accounts c = s.accounts c) ∧
    (∀ t e, s.tx_ledger t = some e → e.is_dispute = true →
      (∀ k, (s.accounts k).client_id = k) →
      (s.accounts e.tx.account_id).locked = true →
      s1.tx_ledger t = some e)

/-- A state whose only touched account (client 1) is locked. -/
def lockedState : EngineState where
  tx_ledger := TransactionLedger.new
  accounts := fun c => if c = 1 then { Account.new 1 with locked := true } else Account.new c

/-- The state after a single deposit of 5 under id 1 by client 1. -/
def oneDepositState : EngineState where
  tx_ledger := fun i =>
    if i = 1 then some { tx := ⟨TxType.deposit, 1, 1, some 5⟩, is_dispute := false } else none
  accounts := fun c =>
    if c = 1 then
      { client_id := 1, available_balance := 5, held_balance := 0, total_balance := 5,
        locked := false }
    else Account.new c

/-- A state in which client 1's deposit under id 2 (amount 3) is under
dispute: 5 available, 3 held. -/
def chargebackReadyState : EngineState where
  tx_ledger := fun i =>
    if i = 1 then some { tx := ⟨TxType.deposit, 1, 1, some 5⟩, is_dispute := false }
    else if i = 2 then some { tx := ⟨TxType.deposit, 1, 2, some 3⟩, is_dispute := true }
    else none
  accounts := fun c =>
    if c = 1 then
      { client_id := 1, available_balance := 5, held_balance := 3, total_balance := 8,
        locked := false }
    else Account.new c

/-! ### The source's IEEE binary64 arithmetic

The Rust code stores balances as `f64` and mutates them with `+=`/`-=`:
IEEE-754 binary64 operations, i.e. the exact rational result rounded to 53
significant bits, round to nearest, ties to even.  A finite double is
modelled by the exact rational value it denotes and `roundF64` performs that
rounding.  Overflow to infinity and subnormal underflow are not modelled:
every value in the traces evaluated below is a normal-range integer, far
from either bound, where this model coincides with IEEE binary64.
Comparisons of finite doubles coincide with the rational order of their
values, so the guard checks need no separate model. -/

/-- For `q > 0`, the unique `e` with `2^e ≤ q < 2^(e+1)`:
`⌊log₂ num⌋ - ⌊log₂ den⌋` overshoots by at most one, which the final
comparison corrects. -/
def ratExp2 (q : ℚ) : ℤ :=
  let k0 : ℤ := (Nat.log2 q.num.natAbs : ℤ) - (Nat.log2 q.den : ℤ)
  if (2 : ℚ) ^ k0 ≤ q then k0 else k0 - 1

/-- Round to the nearest integer, ties to even (`2*m` against `2*⌊m⌋ + 1`
decides which side of the midpoint `m` lies on). -/
def roundTiesEven (m : ℚ) : ℤ :=
  let f := ⌊m⌋
  if 2 * m < 2 * (f : ℚ) + 1 then f
  else if 2 * (f : ℚ) + 1 < 2 * m then f + 1
  else if f % 2 = 0 then f else f + 1

/-- Round an exact rational to the nearest IEEE binary64 value: scale into
the 53-bit significand range `[2^52, 2^53)`, round ties-to-even, scale back
(normal range only). -/
def roundF64 (q : ℚ) : ℚ :=
  if q = 0 then 0
  else
    let s : ℚ := if q < 0 then -q else q
    let e : ℤ := ratExp2 s - 52
    let n : ℤ := roundTiesEven (s * (2 : ℚ) ^ (-e))
    (if q < 0 then (-1 : ℚ) else 1) * (n : ℚ) * (2 : ℚ) ^ e

/-- IEEE binary64 addition: the source's `+=` on `f64`. -/
def f64add (x y : ℚ) : ℚ := roundF64 (x + y)

/-- IEEE binary64 subtraction: the source's `-=` on `f64`. -/
def f64sub (x y : ℚ) : ℚ := roundF64 (x - y)

/-- `Account::deposit` with the balance mutations at the source's IEEE f64
precision; control flow identical to `Account.deposit`. -/
def Account.depositF (a : Account) (amount : ℚ) : Except Error Account :=
  match a.is_locked with
  | .error e => .error e
  | .ok _ =>
      .ok { a with
              available_balance := f64add a.available_balance amount
              total_balance := f64add a.total_balance amount }

/-- `Account::withdrawal` at IEEE f64 precision. -/
def Account.withdrawalF (a : Account) (amount : ℚ) : Except Error Account :=
  match a.is_locked with
  | .error e => .error e
  | .ok _ =>
      match a.has_sufficient_funds amount with
      | .error e => .error e
      | .ok _ =>
          .ok { a with
                  available_balance := f64sub a.available_balance amount
                  total_balance := f64sub a.total_balance amount }

/-- `Account::dispute` at IEEE f64 precision. -/
def Account.disputeF (a : Account) (amount : ℚ) : Except Error Account :=
  match a.is_locked with
  | .error e => .error e
  | .ok _ =>
      match a.has_sufficient_funds amount with
      | .error e => .error e
      | .ok _ =>
          .ok { a with
                  available_balance := f64sub a.available_balance amount
                  held_balance := f64add a.held_balance amount }

/-- `Account::resolve` at IEEE f64 precision. -/
def Account.resolveF (a : Account) (amount : ℚ) : Except Error Account :=
  match a.is_locked with
  | .error e => .error e
  | .ok _ =>
      match a.has_sufficient_hold_balande amount with
      | .error e => .error e
      | .ok _ =>
          .ok { a with
                  held_balance := f64sub a.held_balance amount
                  available_balance := f64add a.available_balance amount }

/-- `Account::chargeback` at IEEE f64 precision. -/
def Account.chargebackF (a : Account) (amount : ℚ) : Except Error Account :=
  match a.is_locked with
  | .error e => .error e
  | .ok _ =>
      match a.has_sufficient_hold_balande amount with
      | .error e => .error e
      | .ok _ =>
          .ok { a with
                  held_balance := f64sub a.held_balance amount
                  total_balance := f64sub a.total_balance amount
                  locked := true }

/-- `applyAccountOp` at IEEE f64 precision. -/
def applyAccountOpF : AccountOp → Account → ℚ → Except Error Account
  | .deposit, a, amt => a.depositF amt
  | .withdrawal, a, amt => a.withdrawalF amt
  | .dispute, a, amt => a.disputeF amt
  | .resolve, a, amt => a.resolveF amt
  | .chargeback, a, amt => a.chargebackF amt

/-- `runAccountOps` at IEEE f64 precision. -/
def runAccountOpsF (a : Account) : List (AccountOp × ℚ) → Account
  | [] => a
  | p :: rest =>
      runAccountOpsF
        (match applyAccountOpF p.1 a p.2 with
          | .ok a2 => a2
          | .error _ => a)
        rest

/-- `Engine::deposit` with the account arithmetic at IEEE f64 precision;
control flow identical to `Engine.deposit`. -/
def EngineF.deposit (s : EngineState) (tx : Transaction) : Option EngineState :=
  match s.tx_ledger.get tx.id with
  | some _ => some s
  | none =>
      match tx.amount with
      | none => none
      | some amt =>
          match (s.accounts.get_or_create tx.account_id).depositF amt with
          | .error _ => some s
          | .ok a2 => some { s with accounts := s.accounts.set tx.account_id a2 }

/-- `Engine::withdrawal` at IEEE f64 precision. -/
def EngineF.withdrawal (s : EngineState) (tx : Transaction) : Option EngineState :=
  match s.tx_ledger.get tx.id with
  | some _ => some s
  | none =>
      match tx.amount with
      | none => none
      | some amt =>
          match (s.accounts.get_or_create tx.account_id).withdrawalF amt with
          | .error _ => some s
          | .ok a2 => some { s with accounts := s.accounts.set tx.account_id a2 }

/-- `Engine::dispute` at IEEE f64 precision. -/
def EngineF.dispute (s : EngineState) (tx : Transaction) : Option EngineState :=
  match s.tx_ledger.get tx.id with
  | none => some s
  | some old =>
      if old.is_dispute = true ∨
          (s.accounts.get_or_create tx.account_id).client_id ≠ old.tx.account_id then
        some s
      else
        match old.tx.amount with
        | none => none
        | some amt =>
            match (s.accounts.get_or_create tx.account_id).disputeF amt with
            | .error _ => some s
            | .ok a2 =>
                match s.tx_ledger.dispute_tx tx.id with
                | none => none
                | some l2 =>
                    some { tx_ledger := l2, accounts := s.accounts.set tx.account_id a2 }

/-- `Engine::resolve` at IEEE f64 precision. -/
def EngineF.resolve (s : EngineState) (tx : Transaction) : Option EngineState :=
  match s.tx_ledger.get tx.id with
  | none => some s
  | some old =>
      if old.is_dispute = true ∧
          old.tx.account_id = (s.accounts.get_or_create tx.account_id).client_id then
        match old.tx.amount with
        | none => none
        | some amt =>
            match (s.accounts.get_or_create tx.account_id).resolveF amt with
            | .error _ => some s
            | .ok a2 =>
                match s.tx_ledger.undispute_tx tx.id with
                | none => none
                | some l2 =>
                    some { tx_ledger := l2, accounts := s.accounts.set tx.account_id a2 }
      else some s

/-- `Engine::chargeback` at IEEE f64 precision. -/
def EngineF.chargeback (s : EngineState) (tx : Transaction) : Option EngineState :=
  match s.tx_ledger.get tx.id with
  | none => some s
  | some old =>
      if old.is_dispute = true ∧
          old.tx.account_id = (s.accounts.get_or_create tx.account_id).client_id then
        match old.tx.amount with
        | none => none
        | some amt =>
            match (s.accounts.get_or_create tx.account_id).chargebackF amt with
            | .error _ => some s
            | .ok a2 => some { s with accounts := s.accounts.set tx.account_id a2 }
      else some s

/-- The `Engine::process` dispatch at IEEE f64 precision. -/
def EngineF.dispatch (s : EngineState) (tx : Transaction) : Option EngineState :=
  match tx.type with
  | .deposit => EngineF.deposit s tx
  | .withdrawal => EngineF.withdrawal s tx
  | .dispute => EngineF.dispute s tx
  | .resolve => EngineF.resolve s tx
  | .chargeback => EngineF.chargeback s tx

/-- One `Engine::process` loop iteration at IEEE f64 precision. -/
def EngineF.step (s : EngineState) (tx : Transaction) : Option EngineState :=
  match EngineF.dispatch s tx with
  | none => none
  | some s2 => some { s2 with tx_ledger := s2.tx_ledger.append tx }

/-- `Engine::process` at IEEE f64 precision. -/
def EngineF.process (s : EngineState) : List Transaction → Option EngineState
  | [] => some s
  | tx :: rest =>
      match EngineF.step s tx with
      | none => none
      | some s2 => EngineF.process s2 rest

/-- An unlocked account of client 1 with `available = total =
9007199254740994.0` (`2^53 + 2`, exactly representable) and a recorded,
undisputed deposit of `1.0` under id 2. -/
def c8FailState : EngineState where
  tx_ledger := fun i =>
    if i = 2 then some { tx := ⟨TxType.deposit, 1, 2, some 1⟩, is_dispute := false }
    else none
  accounts := fun c =>
    if c = 1 then
      { client_id := 1, available_balance := 9007199254740994, held_balance := 0,
        total_balance := 9007199254740994, locked := false }
    else Account.new c

/-! ### Characterization lemmas for the `Account` operations -/

lemma Account.deposit_ok {a : Account} {amt : ℚ} {a2 : Account}
    (h : a.deposit amt = .ok a2) :
    a.locked = false ∧
      a2 = { a with available_balance := a.available_balance + amt,
                    total_balance := a.total_balance + amt } := by
  by_cases hl : a.locked = true <;>
    simp [Account.deposit, Account.is_locked, hl] at h <;>
    simp [hl, h.symm]

lemma Account.withdrawal_ok {a : Account} {amt : ℚ} {a2 : Account}
    (h : a.withdrawal amt = .ok a2) :
    a.locked = false ∧ amt ≤ a.available_balance ∧
      a2 = { a with available_balance := a.available_balance - amt,
                    total_balance := a.total_balance - amt } := by
  by_cases hl : a.locked = true <;>
    by_cases hf : a.available_balance < amt <;>
    simp [Account.withdrawal, Account.is_locked, Account.has_sufficient_funds, hl, hf] at h <;>
    simp [hl, hf, h.symm, le_of_not_lt hf]

lemma Account.dispute_ok {a : Account} {amt : ℚ} {a2 : Account}
    (h : a.dispute amt = .ok a2) :
    a.locked = false ∧ amt ≤ a.available_balance ∧
      a2 = { a with available_balance := a.available_balance - amt,
                    held_balance := a.held_balance + amt } := by
  by_cases hl : a.locked = true <;>
    by_cases hf : a.available_balance < amt <;>
    simp [Account.dispute, Account.is_locked, Account.has_sufficient_funds, hl, hf] at h <;>
    simp [hl, hf, h.symm, le_of_not_lt hf]

lemma Account.resolve_ok {a : Account} {amt : ℚ} {a2 : Account}
    (h : a.resolve amt = .ok a2) :
    a.locked = false ∧ amt ≤ a.held_balance ∧
      a2 = { a with held_balance := a.held_balance - amt,
                    available_balance := a.available_balance + amt } := by
  by_cases hl : a.locked = true <;>
    by_cases hf : a.held_balance < amt <;>
    simp [Account.resolve, Account.is_locked, Account.has_sufficient_hold_balande, hl, hf]
      at h <;>
    simp [hl, hf, h.symm, le_of_not_lt hf]

lemma Account.chargeback_ok {a : Account} {amt : ℚ} {a2 : Account}
    (h : a.chargeback amt = .ok a2) :
    a.locked = false ∧ amt ≤ a.held_balance ∧
      a2 = { a with held_balance := a.held_balance - amt,
                    total_balance := a.total_balance - amt,
                    locked := true } := by
  by_cases hl : a.locked = true <;>
    by_cases hf : a.held_balance < amt <;>
    simp [Account.chargeback, Account.is_locked, Account.has_sufficient_hold_balande, hl, hf]
      at h <;>
    simp [hl, hf, h.symm, le_of_not_lt hf]

/-- Every operation on a locked account fails with `LockedAccount` (the lock
check is the first check in each method). -/
lemma applyAccountOp_locked (op : AccountOp) (a : Account) (amt : ℚ)
    (h : a.locked = true) :
    applyAccountOp op a amt = .error .lockedAccount := by
  cases op <;>
    simp [applyAccountOp, Account.deposit, Account.withdrawal, Account.dispute,
      Account.resolve, Account.chargeback, Account.is_locked, h]

/-- Successful operations preserve `client_id`. -/
lemma applyAccountOp_ok_client_id {op : AccountOp} {a : Account} {amt : ℚ} {a2 : Account}
    (h : applyAccountOp op a amt = .ok a2) : a2.client_id = a.client_id := by
  cases op
  case deposit => rw [(Account.deposit_ok h).2]
  case withdrawal => rw [(Account.withdrawal_ok h).2.2]
  case dispute => rw [(Account.dispute_ok h).2.2]
  case resolve => rw [(Account.resolve_ok h).2.2]
  case chargeback => rw [(Account.chargeback_ok h).2.2]

/-- A successful operation never unlocks an account: if the result is
unlocked, so was the input. -/
lemma applyAccountOp_ok_locked {op : AccountOp} {a : Account} {amt : ℚ} {a2 : Account}
    (h : applyAccountOp op a amt = .ok a2) (h2 : a2.locked = false) : a.locked = false := by
  cases op
  case deposit => have := (Account.deposit_ok h).2; rw [this] at h2; exact h2
  case withdrawal => have := (Account.withdrawal_ok h).2.2; rw [this] at h2; exact h2
  case dispute => have := (Account.dispute_ok h).2.2; rw [this] at h2; exact h2
  case resolve => have := (Account.resolve_ok h).2.2; rw [this] at h2; exact h2
  case chargeback => exact (Account.chargeback_ok h).1

/-- The account invariant is preserved by any single (possibly failing)
operation with a non-negative amount. -/
lemma accountInv_preserved (op : AccountOp) (a : Account) (amt : ℚ)
    (hinv : AccountInv a) (hamt : 0 ≤ amt) :
    AccountInv (match applyAccountOp op a amt with
      | .ok a2 => a2
      | .error _ => a) := by
  obtain ⟨ht, hav, hh⟩ := hinv
  cases hop : applyAccountOp op a amt with
  | error e => simpa [AccountInv, ht] using ⟨hav, hh⟩
  | ok a2 =>
      cases op
      case deposit =>
        obtain ⟨-, rfl⟩ := Account.deposit_ok hop
        refine ⟨?_, ?_, ?_⟩ <;> simp <;> linarith
      case withdrawal =>
        obtain ⟨-, hle, rfl⟩ := Account.withdrawal_ok hop
        refine ⟨?_, ?_, ?_⟩ <;> simp <;> linarith
      case dispute =>
        obtain ⟨-, hle, rfl⟩ := Account.dispute_ok hop
        refine ⟨?_, ?_, ?_⟩ <;> simp <;> linarith
      case resolve =>
        obtain ⟨-, hle, rfl⟩ := Account.resolve_ok hop
        refine ⟨?_, ?_, ?_⟩ <;> simp <;> linarith
      case chargeback =>
        obtain ⟨-, hle, rfl⟩ := Account.chargeback_ok hop
        refine ⟨?_, ?_, ?_⟩ <;> simp <;> linarith

lemma accountInv_runAccountOps (ops : List (AccountOp × ℚ)) :
    ∀ a : Account, AccountInv a → (∀ p ∈ ops, 0 ≤ p.2) →
      AccountInv (runAccountOps a ops) := by
  induction ops with
  | nil => intro a ha _; exact ha
  | cons p rest ih =>
      intro a ha hops
      rw [runAccountOps]
      exact ih _ (accountInv_preserved p.1 a p.2 ha (hops p (by simp)))
        (fun q hq => hops q (by simp [hq]))

/-- Claim C5: every operation on a locked account fails with `LockedAccount`
(the lock check precedes every other validation, so the error is
`LockedAccount` no matter the amount), and no successful operation ever
resets `locked` to `false` — the locked state is terminal and absorbing.
In this pure embedding a failing operation returns only the error, so the
account value is trivially unchanged; the corresponding engine-level
no-mutation fact is part of claim C7's theorem. -/
theorem c5_locked_terminal (op : AccountOp) (a : Account) (amt : ℚ) :
    (a.locked = true → applyAccountOp op a amt = .error .lockedAccount) ∧
      (∀ a2, applyAccountOp op a amt = .ok a2 → a2.locked = false → a.locked = false) :=
  ⟨fun h => applyAccountOp_locked op a amt h,
   fun _ h h2 => applyAccountOp_ok_locked h h2⟩

/-- Witness for C5: a deposit of 5 on a locked account errs with `LockedAccount`. -/
theorem c5_locked_terminal_witness :
    applyAccountOp AccountOp.deposit lockedAccount1 5 = .error .lockedAccount :=
  (c5_locked_terminal AccountOp.deposit lockedAccount1 5).1 rfl

/-! ### Ledger lemmas -/

lemma TransactionLedger.append_at {l : TransactionLedger} {t : TxId} {e : LedgerEntry}
    (h : l t = some e) (tx : Transaction) : (l.append tx) t = some e := by
  unfold TransactionLedger.append
  cases hl : l tx.id with
  | some e2 => simp only [hl]; exact h
  | none =>
      simp only [hl]
      by_cases hit : t = tx.id
      · rw [hit] at h; rw [h] at hl; exact absurd hl (by simp)
      · simp [hit, h]

lemma TransactionLedger.append_isSome (l : TransactionLedger) (tx : Transaction) (i : TxId) :
    ((l.append tx) i).isSome = true ↔ ((l i).isSome = true ∨ i = tx.id) := by
  unfold TransactionLedger.append
  cases hl : l tx.id with
  | some e2 =>
      simp only [hl]
      constructor
      · exact fun h => Or.inl h
      · rintro (h | rfl)
        · exact h
        · rw [hl]; rfl
  | none =>
      simp only [hl]
      by_cases hit : i = tx.id <;> simp [hit]

lemma TransactionLedger.dispute_tx_some {l l2 : TransactionLedger} {id : TxId}
    (h : l.dispute_tx id = some l2) :
    ∃ e, l id = some e ∧
      l2 = fun i => if i = id then some { e with is_dispute := true } else l i := by
  unfold TransactionLedger.dispute_tx at h
  split at h
  · exact absurd h (by simp)
  · rename_i e he
    exact ⟨e, he, by injection h with h; exact h.symm⟩

lemma TransactionLedger.undispute_tx_some {l l2 : TransactionLedger} {id : TxId}
    (h : l.undispute_tx id = some l2) :
    ∃ e, l id = some e ∧
      l2 = fun i => if i = id then some { e with is_dispute := false } else l i := by
  unfold TransactionLedger.undispute_tx at h
  split at h
  · exact absurd h (by simp)
  · rename_i e he
    exact ⟨e, he, by injection h with h; exact h.symm⟩

/-! ### Dispatch characterization lemmas

For each of the five `Engine` dispatch functions, a successful (non-panicking)
call preserves: the set of recorded ids, accounts other than the addressed
one, every account's `client_id`, the whole state when the addressed account
is locked, and any recorded entry that is currently disputed (for `resolve`
this last point additionally needs the addressed account to be stored under
its own `client_id` and the disputing client's account to be locked). -/

lemma dispatchFacts_refl (s : EngineState) (tx : Transaction) : DispatchFacts s tx s :=
  ⟨fun _ => Iff.rfl, fun _ _ => rfl, fun _ => rfl, fun _ => rfl, fun _ _ h _ _ _ => h⟩

lemma Engine.deposit_facts {s : EngineState} {tx : Transaction} {s1 : EngineState}
    (h : Engine.deposit s tx = some s1) : DispatchFacts s tx s1 := by
  unfold Engine.deposit at h
  split at h
  · injection h with h; subst h; exact dispatchFacts_refl s tx
  · split at h
    · exact absurd h (by simp)
    · split at h
      · injection h with h; subst h; exact dispatchFacts_refl s tx
      · rename_i amt hamt a2 hok
        injection h with h; subst h
        have hcl := (Account.deposit_ok hok).2
        have hlk := (Account.deposit_ok hok).1
        refine ⟨fun i => Iff.rfl, ?_, ?_, ?_, fun t e he _ _ _ => he⟩
        · intro k hk; simp [AccountsRepository.set, hk]
        · intro k
          by_cases hk : k = tx.account_id
          · subst hk; simp [AccountsRepository.set, hcl, AccountsRepository.get_or_create]
          · simp [AccountsRepository.set, hk]
        · intro hl
          rw [show s.accounts.get_or_create tx.account_id = s.accounts tx.account_id from rfl]
            at hlk
          rw [hl] at hlk; exact absurd hlk (by simp)

lemma Engine.withdrawal_facts {s : EngineState} {tx : Transaction} {s1 : EngineState}
    (h : Engine.withdrawal s tx = some s1) : DispatchFacts s tx s1 := by
  unfold Engine.withdrawal at h
  split at h
  · injection h with h; subst h; exact dispatchFacts_refl s tx
  · split at h
    · exact absurd h (by simp)
    · split at h
      · injection h with h; subst h; exact dispatchFacts_refl s tx
      · rename_i amt hamt a2 hok
        injection h with h; subst h
        have hcl := (Account.withdrawal_ok hok).2.2
        have hlk := (Account.withdrawal_ok hok).1
        refine ⟨fun i => Iff.rfl, ?_, ?_, ?_, fun t e he _ _ _ => he⟩
        · intro k hk; simp [AccountsRepository.set, hk]
        · intro k
          by_cases hk : k = tx.account_id
          · subst hk; simp [AccountsRepository.set, hcl, AccountsRepository.get_or_create]
          · simp [AccountsRepository.set, hk]
        · intro hl
          rw [show s.accounts.get_or_create tx.account_id = s.accounts tx.account_id from rfl]
            at hlk
          rw [hl] at hlk; exact absurd hlk (by simp)

lemma Engine.chargeback_facts {s : EngineState} {tx : Transaction} {s1 : EngineState}
    (h : Engine.chargeback s tx = some s1) : DispatchFacts s tx s1 := by
  unfold Engine.chargeback at h
  split at h
  · injection h with h; subst h; exact dispatchFacts_refl s tx
  · split at h
    · split at h
      · exact absurd h (by simp)
      · split at h
        · injection h with h; subst h; exact dispatchFacts_refl s tx
        · rename_i hguard amt hamt a2 hok
          injection h with h; subst h
          have hcl := (Account.chargeback_ok hok).2.2
          have hlk := (Account.chargeback_ok hok).1
          refine ⟨fun i => Iff.rfl, ?_, ?_, ?_, fun t e he _ _ _ => he⟩
          · intro k hk; simp [AccountsRepository.set, hk]
          · intro k
            by_cases hk : k = tx.account_id
            · subst hk; simp [AccountsRepository.set, hcl, AccountsRepository.get_or_create]
            · simp [AccountsRepository.set, hk]
          · intro hl
            rw [show s.accounts.get_or_create tx.account_id = s.accounts tx.account_id from
              rfl] at hlk
            rw [hl] at hlk; exact absurd hlk (by simp)
    · injection h with h; subst h; exact dispatchFacts_refl s tx

lemma Engine.dispute_facts {s : EngineState} {tx : Transaction} {s1 : EngineState}
    (h : Engine.dispute s tx = some s1) : DispatchFacts s tx s1 := by
  unfold Engine.dispute at h
  split at h
  · injection h with h; subst h; exact dispatchFacts_refl s tx
  · rename_i old heq
    split at h
    · injection h with h; subst h; exact dispatchFacts_refl s tx
    · rename_i hguard
      split at h
      · exact absurd h (by simp)
      · rename_i amt hamt
        split at h
        · injection h with h; subst h; exact dispatchFacts_refl s tx
        · rename_i a2 hok
          split at h
          · exact absurd h (by simp)
          · rename_i l2 hl2
            injection h with h; subst h
            obtain ⟨e0, he0, rfl⟩ := TransactionLedger.dispute_tx_some hl2
            have heo : e0 = old := by
              rw [show s.tx_ledger.get tx.id = s.tx_ledger tx.id from rfl] at heq
              rw [heq] at he0; injection he0 with he0; exact he0.symm
            have hcl := (Account.dispute_ok hok).2.2
            have hlk := (Account.dispute_ok hok).1
            push_neg at hguard
            refine ⟨?_, ?_, ?_, ?_, ?_⟩
            · intro i
              by_cases hit : i = tx.id
              · subst hit
                rw [show s.tx_ledger.get tx.id = s.tx_ledger tx.id from rfl] at heq
                simp [heq]
              · simp [hit]
            · intro k hk; simp [AccountsRepository.set, hk]
            · intro k
              by_cases hk : k = tx.account_id
              · subst hk; simp [AccountsRepository.set, hcl, AccountsRepository.get_or_create]
              · simp [AccountsRepository.set, hk]
            · intro hl
              rw [show s.accounts.get_or_create tx.account_id = s.accounts tx.account_id from
                rfl] at hlk
              rw [hl] at hlk; exact absurd hlk (by simp)
            · intro t e he hd _ _
              by_cases hit : t = tx.id
              · subst hit
                rw [he0] at he; injection he with he; subst he
                rw [heo] at hd
                exact absurd hd hguard.1
              · simp [hit, he]

lemma Engine.resolve_facts {s : EngineState} {tx : Transaction} {s1 : EngineState}
    (h : Engine.resolve s tx = some s1) : DispatchFacts s tx s1 := by
  unfold Engine.resolve at h
  split at h
  · injection h with h; subst h; exact dispatchFacts_refl s tx
  · rename_i old heq
    split at h
    · rename_i hguard
      split at h
      · exact absurd h (by simp)
      · rename_i amt hamt
        split at h
        · injection h with h; subst h; exact dispatchFacts_refl s tx
        · rename_i a2 hok
          split at h
          · exact absurd h (by simp)
          · rename_i l2 hl2
            injection h with h; subst h
            obtain ⟨e0, he0, rfl⟩ := TransactionLedger.undispute_tx_some hl2
            have heo : e0 = old := by
              rw [show s.tx_ledger.get tx.id = s.tx_ledger tx.id from rfl] at heq
              rw [heq] at he0; injection he0 with he0; exact he0.symm
            have hcl := (Account.resolve_ok hok).2.2
            have hlk := (Account.resolve_ok hok).1
            refine ⟨?_, ?_, ?_, ?_, ?_⟩
            · intro i
              by_cases hit : i = tx.id
              · subst hit
                rw [show s.tx_ledger.get tx.id = s.tx_ledger tx.id from rfl] at heq
                simp [heq]
              · simp [hit]
            · intro k hk; simp [AccountsRepository.set, hk]
            · intro k
              by_cases hk : k = tx.account_id
              · subst hk; simp [AccountsRepository.set, hcl, AccountsRepository.get_or_create]
              · simp [AccountsRepository.set, hk]
            · intro hl
              rw [show s.accounts.get_or_create tx.account_id = s.accounts tx.account_id from
                rfl] at hlk
              rw [hl] at hlk; exact absurd hlk (by simp)
            · intro t e he hd hwf hlkd
              by_cases hit : t = tx.id
              · subst hit
                rw [he0] at he; injection he with he; subst he
                rw [heo] at hlkd
                have hacc : old.tx.account_id = tx.account_id := by
                  rw [hguard.2]; exact hwf
                rw [hacc] at hlkd
                rw [show s.accounts.get_or_create tx.account_id = s.accounts tx.account_id from
                  rfl] at hlk
                rw [hlkd] at hlk
                exact absurd hlk (by simp)
              · simp [hit, he]
    · injection h with h; subst h; exact dispatchFacts_refl s tx

/-! ### Step and process lemmas -/

lemma TransactionLedger.append_of_isSome {l : TransactionLedger} {tx : Transaction}
    (h : (l tx.id).isSome = true) : l.append tx = l := by
  unfold TransactionLedger.append
  cases hl : l tx.id with
  | some e => simp only [hl]
  | none => rw [hl] at h; exact absurd h (by simp)

lemma Engine.step_facts {s : EngineState} {tx : Transaction} {s1 : EngineState}
    (h : Engine.step s tx = some s1) : StepFacts s tx s1 := by
  unfold Engine.step at h
  split at h
  · exact absurd h (by simp)
  · rename_i s2 heq
    injection h with h; subst h
    have hfacts : DispatchFacts s tx s2 := by
      unfold Engine.dispatch at heq
      split at heq
      · exact Engine.deposit_facts heq
      · exact Engine.withdrawal_facts heq
      · exact Engine.dispute_facts heq
      · exact Engine.resolve_facts heq
      · exact Engine.chargeback_facts heq
    obtain ⟨hkeys, hother, hclid, hlocked, hentry⟩ := hfacts
    refine ⟨?_, hclid, ?_, ?_⟩
    · intro i
      show ((s2.tx_ledger.append tx) i).isSome = true ↔
        ((s.tx_ledger i).isSome = true ∨ i = tx.id)
      rw [TransactionLedger.append_isSome, hkeys i]
    · intro c hc
      by_cases hca : c = tx.account_id
      · subst hca; rw [hlocked hc]
      · exact hother c hca
    · intro t e he hd hwf hlkd
      exact TransactionLedger.append_at (hentry t e he hd (hwf tx.account_id) hlkd) tx

/-- A Deposit or Withdrawal whose id is already recorded is skipped entirely:
the step is the identity on the state. -/
lemma Engine.step_duplicate {s : EngineState} {tx : Transaction}
    (hty : tx.type = TxType.deposit ∨ tx.type = TxType.withdrawal)
    (hdup : (s.tx_ledger tx.id).isSome = true) : Engine.step s tx = some s := by
  obtain ⟨e, he⟩ := Option.isSome_iff_exists.mp hdup
  have hdep : Engine.deposit s tx = some s := by
    unfold Engine.deposit
    rw [show s.tx_ledger.get tx.id = s.tx_ledger tx.id from rfl, he]
  have hwd : Engine.withdrawal s tx = some s := by
    unfold Engine.withdrawal
    rw [show s.tx_ledger.get tx.id = s.tx_ledger tx.id from rfl, he]
  rcases hty with hty | hty <;>
    simp only [Engine.step, Engine.dispatch, hty, hdep, hwd] <;>
    rw [TransactionLedger.append_of_isSome hdup]

/-- Once a recorded entry is disputed and its client's account is locked, the
rest of the run leaves that entry (and the lock) in place: the accounts keep
their ids, the account stays locked, and the entry is never modified. -/
lemma Engine.process_facts {t : TxId} {c : ClientId} {e : LedgerEntry}
    (hd : e.is_dispute = true) (hec : e.tx.account_id = c) :
    ∀ (txs : List Transaction) (s s2 : EngineState),
      (∀ k, (s.accounts k).client_id = k) →
      (s.accounts c).locked = true →
      s.tx_ledger t = some e →
      Engine.process s txs = some s2 →
      (∀ k, (s2.accounts k).client_id = k) ∧ (s2.accounts c).locked = true ∧
        s2.tx_ledger t = some e := by
  intro txs
  induction txs with
  | nil =>
      intro s s2 hwf hlk he hp
      rw [Engine.process] at hp
      injection hp with hp; subst hp
      exact ⟨hwf, hlk, he⟩
  | cons tx rest ih =>
      intro s s2 hwf hlk he hp
      rw [Engine.process] at hp
      split at hp
      · exact absurd hp (by simp)
      · rename_i s1 hstep
        obtain ⟨hkeys, hclid, hlocked, hentry⟩ := Engine.step_facts hstep
        refine ih s1 s2 ?_ ?_ ?_ hp
        · intro k; rw [hclid k]; exact hwf k
        · rw [hlocked c hlk]; exact hlk
        · exact hentry t e he hd hwf (by rw [hec]; exact hlk)

/-- Processing a stream equals processing its deduplication, provided `seen`
is exactly the set of ids recorded in the starting ledger. -/
lemma Engine.process_dedupe (txs : List Transaction) :
    ∀ (s : EngineState) (seen : TxId → Bool),
      (∀ i, seen i = true ↔ (s.tx_ledger i).isSome = true) →
      Engine.process s (dedupe seen txs) = Engine.process s txs := by
  induction txs with
  | nil => intro s seen _; rfl
  | cons tx rest ih =>
      intro s seen hseen
      rw [dedupe]
      by_cases hc : (tx.type = TxType.deposit ∨ tx.type = TxType.withdrawal) ∧
          seen tx.id = true
      · rw [if_pos hc]
        have hstep : Engine.step s tx = some s :=
          Engine.step_duplicate hc.1 ((hseen tx.id).mp hc.2)
        rw [show Engine.process s (tx :: rest) = Engine.process s rest from by
          rw [Engine.process, hstep]]
        exact ih s seen hseen
      · rw [if_neg hc]
        rw [Engine.process, Engine.process]
        cases hstep : Engine.step s tx with
        | none => rfl
        | some s1 =>
            apply ih s1
            intro i
            have hkeys := (Engine.step_facts hstep).1
            simp only [Bool.or_eq_true, decide_eq_true_eq, hseen i, hkeys i]

/-- Claim C6: a Deposit or Withdrawal carrying an already-recorded id is
applied at most once — processing a stream from the initial state gives
exactly the same final state (all balances and the ledger) as processing the
stream with the repeated occurrences removed.  `dedupe` removes every
Deposit/Withdrawal whose id was carried by an earlier instruction, which is
precisely the set the engine skips, since every processed instruction is
appended to the ledger. -/
theorem c6_duplicate_applied_once (txs : List Transaction) :
    Engine.process initState (dedupe (fun _ => false) txs) =
      Engine.process initState txs :=
  Engine.process_dedupe txs initState (fun _ => false)
    (by intro i; simp [initState, TransactionLedger.new])

/-- Claim C10: instruction ids form a single namespace shared across all
clients and both deposit and withdrawal kinds — a Deposit or Withdrawal whose
id is recorded in the ledger (no matter which client or kind recorded it) is
silently skipped: the step leaves the whole state unchanged. -/
theorem c10_single_id_namespace (s : EngineState) (tx : Transaction)
    (hty : tx.type = TxType.deposit ∨ tx.type = TxType.withdrawal)
    (hdup : (s.tx_ledger tx.id).isSome = true) :
    Engine.step s tx = some s :=
  Engine.step_duplicate hty hdup

/-- Witness for C10: client 2's deposit under id 1 is skipped because client
1 already recorded id 1. -/
theorem c10_single_id_namespace_witness :
    Engine.step oneDepositState ⟨TxType.deposit, 2, 1, some 7⟩ = some oneDepositState :=
  c10_single_id_namespace oneDepositState ⟨TxType.deposit, 2, 1, some 7⟩ (Or.inl rfl)
    (by simp [oneDepositState])

/-- Claim C7: whenever the underlying `Account` operation returns an error
(`InsufficientFunds` or `LockedAccount`), the dispatch leaves the state
exactly as it was: all account fields are unchanged and no disputed flag is
toggled (the flag is flipped only after a successful balance mutation). -/
theorem c7_account_error_zero_effect :
    (∀ (s : EngineState) (tx : Transaction) (amt : ℚ) (err : Error),
        tx.amount = some amt →
        (s.accounts.get_or_create tx.account_id).deposit amt = .error err →
        Engine.deposit s tx = some s) ∧
      (∀ (s : EngineState) (tx : Transaction) (amt : ℚ) (err : Error),
        tx.amount = some amt →
        (s.accounts.get_or_create tx.account_id).withdrawal amt = .error err →
        Engine.withdrawal s tx = some s) ∧
      (∀ (s : EngineState) (tx : Transaction) (old : LedgerEntry) (amt : ℚ) (err : Error),
        s.tx_ledger.get tx.id = some old → old.tx.amount = some amt →
        (s.accounts.get_or_create tx.account_id).dispute amt = .error err →
        Engine.dispute s tx = some s) ∧
      (∀ (s : EngineState) (tx : Transaction) (old : LedgerEntry) (amt : ℚ) (err : Error),
        s.tx_ledger.get tx.id = some old → old.tx.amount = some amt →
        (s.accounts.get_or_create tx.account_id).resolve amt = .error err →
        Engine.resolve s tx = some s) ∧
      (∀ (s : EngineState) (tx : Transaction) (old : LedgerEntry) (amt : ℚ) (err : Error),
        s.tx_ledger.get tx.id = some old → old.tx.amount = some amt →
        (s.accounts.get_or_create tx.account_id).chargeback amt = .error err →
        Engine.chargeback s tx = some s) := by
  refine ⟨?_, ?_, ?_, ?_, ?_⟩
  · intro s tx amt err ha herr
    cases hg : s.tx_ledger.get tx.id with
    | some e => simp [Engine.deposit, hg]
    | none => simp [Engine.deposit, hg, ha, herr]
  · intro s tx amt err ha herr
    cases hg : s.tx_ledger.get tx.id with
    | some e => simp [Engine.withdrawal, hg]
    | none => simp [Engine.withdrawal, hg, ha, herr]
  · intro s tx old amt err hold ha herr
    simp only [Engine.dispute, hold]
    split
    · rfl
    · simp [ha, herr]
  · intro s tx old amt err hold ha herr
    simp only [Engine.resolve, hold]
    split
    · simp [ha, herr]
    · rfl
  · intro s tx old amt err hold ha herr
    simp only [Engine.chargeback, hold]
    split
    · simp [ha, herr]
    · rfl

/-- Witness for C7: a deposit on the locked account of client 1 errs, and
the dispatch leaves the state unchanged. -/
theorem c7_account_error_zero_effect_witness :
    Engine.deposit lockedState ⟨TxType.deposit, 1, 7, some 5⟩ = some lockedState :=
  c7_account_error_zero_effect.1 lockedState ⟨TxType.deposit, 1, 7, some 5⟩ 5
    Error.lockedAccount rfl rfl

/-- Counterexample to claim C2 as stated: processing a Dispute whose id 1 is
absent from the history and then a Deposit carrying the same id 1 leaves
client 1's available balance at 0 — the dispute instruction was inserted
into the history (`isSome = true`) and the later deposit was skipped, not
applied as the claim asserts. -/
theorem c2_counterexample :
    (Engine.process initState
        [⟨TxType.dispute, 1, 1, none⟩, ⟨TxType.deposit, 1, 1, some 5⟩]).map
        (fun s => ((s.accounts 1).available_balance, (s.tx_ledger 1).isSome))
      = some (0, true) := by
  rfl

/-- Claim C2 amended: a Dispute/Resolve/Chargeback whose id is absent from
the history changes no balances and no disputed flag, but — because
`Engine::process` unconditionally appends every instruction — the instruction
itself IS inserted into the history under its id, so a later Deposit or
Withdrawal carrying that id is skipped instead of applied. -/
theorem c2_amended_insertion (s : EngineState) (tx : Transaction)
    (hty : tx.type = TxType.dispute ∨ tx.type = TxType.resolve ∨
      tx.type = TxType.chargeback)
    (hnone : s.tx_ledger tx.id = none) :
    Engine.step s tx =
      some ⟨fun i => if i = tx.id then some ⟨tx, false⟩ else s.tx_ledger i, s.accounts⟩ ∧
      ∀ tx2 : Transaction,
        (tx2.type = TxType.deposit ∨ tx2.type = TxType.withdrawal) → tx2.id = tx.id →
        Engine.step ⟨fun i => if i = tx.id then some ⟨tx, false⟩ else s.tx_ledger i,
            s.accounts⟩ tx2 =
          some ⟨fun i => if i = tx.id then some ⟨tx, false⟩ else s.tx_ledger i, s.accounts⟩ := by
  have happ : s.tx_ledger.append tx =
      fun i => if i = tx.id then some ⟨tx, false⟩ else s.tx_ledger i := by
    unfold TransactionLedger.append; rw [hnone]
  have hdisp : Engine.dispatch s tx = some s := by
    have hget : s.tx_ledger.get tx.id = none := hnone
    rcases hty with h | h | h <;>
      simp only [Engine.dispatch, h, Engine.dispute, Engine.resolve, Engine.chargeback,
        hget]
  constructor
  · simp only [Engine.step, hdisp, happ]
  · intro tx2 hty2 hid
    refine Engine.step_duplicate hty2 ?_
    show ((fun i => if i = tx.id then some ⟨tx, false⟩ else s.tx_ledger i) tx2.id).isSome
      = true
    rw [hid]; simp

/-- Witness for the amended C2 at a concrete input. -/
theorem c2_amended_insertion_witness :
    Engine.step initState ⟨TxType.dispute, 1, 1, none⟩ =
      some ⟨fun i => if i = 1 then some ⟨⟨TxType.dispute, 1, 1, none⟩, false⟩
          else initState.tx_ledger i, initState.accounts⟩ :=
  (c2_amended_insertion initState ⟨TxType.dispute, 1, 1, none⟩ (Or.inl rfl) rfl).1

/-- Counterexample to claim C3 as stated: `dispute_tx`/`undispute_tx` on an
id missing from an empty ledger do not return a normal result — they hit
`Option::unwrap` on `None`, i.e. they panic (modelled as `none`). -/
theorem c3_counterexample :
    TransactionLedger.new.dispute_tx 1 = none ∧
      TransactionLedger.new.undispute_tx 1 = none :=
  ⟨rfl, rfl⟩

/-- Claim C3 amended: `dispute_tx` / `undispute_tx` on a missing id are NOT
guarded — they unwrap a `None` and panic instead of returning a result.  (In
the engine's flow they are only invoked after a successful lookup, so the
panic is unreachable there.) -/
theorem c3_amended_panics (l : TransactionLedger) (id : TxId) (h : l id = none) :
    l.dispute_tx id = none ∧ l.undispute_tx id = none := by
  constructor
  · simp [TransactionLedger.dispute_tx, h]
  · simp [TransactionLedger.undispute_tx, h]

/-- Witness for the amended C3. -/
theorem c3_amended_panics_witness :
    TransactionLedger.new.dispute_tx 2 = none ∧
      TransactionLedger.new.undispute_tx 2 = none :=
  c3_amended_panics TransactionLedger.new 2 rfl

/-- Claim C4 (code bug): a Deposit or Withdrawal whose amount field is absent
makes the engine panic — `Transaction::amount()` is `self.amount.unwrap()` —
so processing aborts (`none`) instead of treating the amount as zero and
continuing, contradicting the spec.  (The deserializer `arbitrary_tx_amount`
in src/parser.rs, which would map an empty string to the default, is never
attached to the `amount` field.) -/
theorem c4_missing_amount_panics :
    Engine.process initState [⟨TxType.deposit, 1, 1, none⟩] = none ∧
      Engine.process initState [⟨TxType.withdrawal, 1, 1, none⟩] = none :=
  ⟨rfl, rfl⟩

/-- When a Dispute's reference checks all pass and the account operation
succeeds, `Engine::dispute` stores the mutated account and marks the record
disputed. -/
lemma Engine.dispute_success {s : EngineState} {tx : Transaction} {etx : Transaction}
    {a : ℚ} {a2 : Account} {l2 : TransactionLedger}
    (hget : s.tx_ledger.get tx.id = some ⟨etx, false⟩)
    (hcli : (s.accounts.get_or_create tx.account_id).client_id = etx.account_id)
    (hamt : etx.amount = some a)
    (hok : (s.accounts.get_or_create tx.account_id).dispute a = Except.ok a2)
    (hdtx : s.tx_ledger.dispute_tx tx.id = some l2) :
    Engine.dispute s tx = some ⟨l2, s.accounts.set tx.account_id a2⟩ := by
  unfold Engine.dispute
  split
  · rename_i hn
    rw [hget] at hn; exact absurd hn (by simp)
  · rename_i old heq
    rw [hget] at heq; injection heq with heq; subst heq
    rw [if_neg (by simp [hcli])]
    split
    · rename_i hn; rw [show (⟨etx, false⟩ : LedgerEntry).tx.amount = some a from hamt] at hn
      exact absurd hn (by simp)
    · rename_i amt hamt2
      rw [show (⟨etx, false⟩ : LedgerEntry).tx.amount = some a from hamt] at hamt2
      injection hamt2 with hamt2; subst hamt2
      split
      · rename_i err herr
        rw [hok] at herr; exact absurd herr (by simp)
      · rename_i a2x hok2
        rw [hok] at hok2; injection hok2 with hok2; subst hok2
        split
        · rename_i hn; rw [hdtx] at hn; exact absurd hn (by simp)
        · rename_i l2x hl2x
          rw [hdtx] at hl2x; injection hl2x with hl2x; subst hl2x; rfl

/-- When a Resolve's reference checks all pass and the account operation
succeeds, `Engine::resolve` stores the mutated account and clears the flag. -/
lemma Engine.resolve_success {s : EngineState} {tx : Transaction} {etx : Transaction}
    {a : ℚ} {a2 : Account} {l2 : TransactionLedger}
    (hget : s.tx_ledger.get tx.id = some ⟨etx, true⟩)
    (hcli : etx.account_id = (s.accounts.get_or_create tx.account_id).client_id)
    (hamt : etx.amount = some a)
    (hok : (s.accounts.get_or_create tx.account_id).resolve a = Except.ok a2)
    (hund : s.tx_ledger.undispute_tx tx.id = some l2) :
    Engine.resolve s tx = some ⟨l2, s.accounts.set tx.account_id a2⟩ := by
  unfold Engine.resolve
  split
  · rename_i hn
    rw [hget] at hn; exact absurd hn (by simp)
  · rename_i old heq
    rw [hget] at heq; injection heq with heq; subst heq
    rw [if_pos ⟨rfl, hcli⟩]
    split
    · rename_i hn; rw [show (⟨etx, true⟩ : LedgerEntry).tx.amount = some a from hamt] at hn
      exact absurd hn (by simp)
    · rename_i amt hamt2
      rw [show (⟨etx, true⟩ : LedgerEntry).tx.amount = some a from hamt] at hamt2
      injection hamt2 with hamt2; subst hamt2
      split
      · rename_i err herr
        rw [hok] at herr; exact absurd herr (by simp)
      · rename_i a2x hok2
        rw [hok] at hok2; injection hok2 with hok2; subst hok2
        split
        · rename_i hn; rw [hund] at hn; exact absurd hn (by simp)
        · rename_i l2x hl2x
          rw [hund] at hl2x; injection hl2x with hl2x; subst hl2x; rfl

/-- When a Chargeback's reference checks all pass and the account operation
succeeds, `Engine::chargeback` stores the (now locked) account and leaves the
ledger untouched. -/
lemma Engine.chargeback_success {s : EngineState} {tx : Transaction} {etx : Transaction}
    {a : ℚ} {a2 : Account}
    (hget : s.tx_ledger.get tx.id = some ⟨etx, true⟩)
    (hcli : etx.account_id = (s.accounts.get_or_create tx.account_id).client_id)
    (hamt : etx.amount = some a)
    (hok : (s.accounts.get_or_create tx.account_id).chargeback a = Except.ok a2) :
    Engine.chargeback s tx = some ⟨s.tx_ledger, s.accounts.set tx.account_id a2⟩ := by
  unfold Engine.chargeback
  split
  · rename_i hn
    rw [hget] at hn; exact absurd hn (by simp)
  · rename_i old heq
    rw [hget] at heq; injection heq with heq; subst heq
    rw [if_pos ⟨rfl, hcli⟩]
    split
    · rename_i hn; rw [show (⟨etx, true⟩ : LedgerEntry).tx.amount = some a from hamt] at hn
      exact absurd hn (by simp)
    · rename_i amt hamt2
      rw [show (⟨etx, true⟩ : LedgerEntry).tx.amount = some a from hamt] at hamt2
      injection hamt2 with hamt2; subst hamt2
      split
      · rename_i err herr
        rw [hok] at herr; exact absurd herr (by simp)
      · rename_i a2x hok2
        rw [hok] at hok2; injection hok2 with hok2; subst hok2; rfl

/-- Under the exact-rational idealization of the balance arithmetic, a
successfully applied Dispute followed by a Resolve of the same id and client
returns the whole engine state exactly to what it was.  The flag and guard
logic of this round trip is arithmetic-free; the balance restoration itself
relies on exact `- a + a` cancellation, which the source's IEEE f64
arithmetic does not provide (see `c8_f64_roundtrip_violation`). -/
lemma Engine.dispute_resolve_roundtrip_exact (s : EngineState) (t : TxId) (c : ClientId)
    (e : LedgerEntry) (a : ℚ) (amtD amtR : Option ℚ)
    (he : s.tx_ledger t = some e)
    (hd : e.is_dispute = false)
    (hec : e.tx.account_id = c)
    (ha : e.tx.amount = some a)
    (hcl : (s.accounts c).client_id = c)
    (hnl : (s.accounts c).locked = false)
    (hav : a ≤ (s.accounts c).available_balance)
    (hhe : 0 ≤ (s.accounts c).held_balance) :
    Engine.process s [⟨TxType.dispute, c, t, amtD⟩, ⟨TxType.resolve, c, t, amtR⟩]
      = some s := by
  rcases e with ⟨etx, edis⟩
  have hede : edis = false := hd
  subst hede
  have hec2 : etx.account_id = c := hec
  have ha22 : etx.amount = some a := ha
  have ha2 : (s.accounts c).dispute a = Except.ok
      { s.accounts c with
          available_balance := (s.accounts c).available_balance - a
          held_balance := (s.accounts c).held_balance + a } := by
    simp [Account.dispute, Account.is_locked, Account.has_sufficient_funds, hnl,
      not_lt.mpr hav]
  have hl1 : s.tx_ledger.dispute_tx t = some
      (fun i => if i = t then some ⟨etx, true⟩ else s.tx_ledger i) := by
    unfold TransactionLedger.dispute_tx
    rw [he]
  have hd1 : Engine.dispute s ⟨TxType.dispute, c, t, amtD⟩ = some
      ⟨fun i => if i = t then some ⟨etx, true⟩ else s.tx_ledger i,
        s.accounts.set c { s.accounts c with
          available_balance := (s.accounts c).available_balance - a
          held_balance := (s.accounts c).held_balance + a }⟩ :=
    Engine.dispute_success he (hcl.trans hec2.symm) ha22 ha2 hl1
  have hstep1 : Engine.step s ⟨TxType.dispute, c, t, amtD⟩ = some
      ⟨fun i => if i = t then some ⟨etx, true⟩ else s.tx_ledger i,
        s.accounts.set c { s.accounts c with
          available_balance := (s.accounts c).available_balance - a
          held_balance := (s.accounts c).held_balance + a }⟩ := by
    simp only [Engine.step,
      show Engine.dispatch s ⟨TxType.dispute, c, t, amtD⟩
          = Engine.dispute s ⟨TxType.dispute, c, t, amtD⟩ from rfl, hd1]
    rw [TransactionLedger.append_of_isSome (by simp)]
  have hacc1 : (AccountsRepository.set s.accounts c { s.accounts c with
      available_balance := (s.accounts c).available_balance - a
      held_balance := (s.accounts c).held_balance + a }) c
        = { s.accounts c with
            available_balance := (s.accounts c).available_balance - a
            held_balance := (s.accounts c).held_balance + a } := by
    simp [AccountsRepository.set]
  have ha3 : ({ s.accounts c with
      available_balance := (s.accounts c).available_balance - a
      held_balance := (s.accounts c).held_balance + a } : Account).resolve a = Except.ok
        { s.accounts c with
            available_balance := (s.accounts c).available_balance - a + a
            held_balance := (s.accounts c).held_balance + a - a } := by
    simp [Account.resolve, Account.is_locked, Account.has_sufficient_hold_balande, hnl,
      not_lt.mpr (show a ≤ (s.accounts c).held_balance + a by linarith)]
  have hund : TransactionLedger.undispute_tx
      (fun i => if i = t then some ⟨etx, true⟩ else s.tx_ledger i) t
        = some (fun i => if i = t then some ⟨etx, false⟩
            else (fun i => if i = t then some ⟨etx, true⟩ else s.tx_ledger i) i) := by
    unfold TransactionLedger.undispute_tx
    simp
  have hr : Engine.resolve
      ⟨fun i => if i = t then some ⟨etx, true⟩ else s.tx_ledger i,
        AccountsRepository.set s.accounts c { s.accounts c with
          available_balance := (s.accounts c).available_balance - a
          held_balance := (s.accounts c).held_balance + a }⟩
      ⟨TxType.resolve, c, t, amtR⟩ = some
        ⟨fun i => if i = t then some ⟨etx, false⟩
            else (fun i => if i = t then some ⟨etx, true⟩ else s.tx_ledger i) i,
          AccountsRepository.set
            (AccountsRepository.set s.accounts c { s.accounts c with
              available_balance := (s.accounts c).available_balance - a
              held_balance := (s.accounts c).held_balance + a }) c
            { s.accounts c with
                available_balance := (s.accounts c).available_balance - a + a
                held_balance := (s.accounts c).held_balance + a - a }⟩ :=
    Engine.resolve_success (by simp [TransactionLedger.get])
      (by rw [show ((⟨fun i => if i = t then some ⟨etx, true⟩ else s.tx_ledger i,
            AccountsRepository.set s.accounts c { s.accounts c with
              available_balance := (s.accounts c).available_balance - a
              held_balance := (s.accounts c).held_balance + a }⟩ :
                EngineState).accounts.get_or_create c)
            = (AccountsRepository.set s.accounts c { s.accounts c with
                available_balance := (s.accounts c).available_balance - a
                held_balance := (s.accounts c).held_balance + a }) c from rfl, hacc1]
          exact hec2.trans hcl.symm)
      ha22
      (by rw [show ((⟨fun i => if i = t then some ⟨etx, true⟩ else s.tx_ledger i,
            AccountsRepository.set s.accounts c { s.accounts c with
              available_balance := (s.accounts c).available_balance - a
              held_balance := (s.accounts c).held_balance + a }⟩ :
                EngineState).accounts.get_or_create c)
            = (AccountsRepository.set s.accounts c { s.accounts c with
                available_balance := (s.accounts c).available_balance - a
                held_balance := (s.accounts c).held_balance + a }) c from rfl, hacc1]
          exact ha3)
      hund
  have hstep2 : Engine.step
      ⟨fun i => if i = t then some ⟨etx, true⟩ else s.tx_ledger i,
        AccountsRepository.set s.accounts c { s.accounts c with
          available_balance := (s.accounts c).available_balance - a
          held_balance := (s.accounts c).held_balance + a }⟩
      ⟨TxType.resolve, c, t, amtR⟩ = some
        ⟨fun i => if i = t then some ⟨etx, false⟩
            else (fun i => if i = t then some ⟨etx, true⟩ else s.tx_ledger i) i,
          AccountsRepository.set
            (AccountsRepository.set s.accounts c { s.accounts c with
              available_balance := (s.accounts c).available_balance - a
              held_balance := (s.accounts c).held_balance + a }) c
            { s.accounts c with
                available_balance := (s.accounts c).available_balance - a + a
                held_balance := (s.accounts c).held_balance + a - a }⟩ := by
    simp only [Engine.step,
      show Engine.dispatch
          ⟨fun i => if i = t then some ⟨etx, true⟩ else s.tx_ledger i,
            AccountsRepository.set s.accounts c { s.accounts c with
              available_balance := (s.accounts c).available_balance - a
              held_balance := (s.accounts c).held_balance + a }⟩
          ⟨TxType.resolve, c, t, amtR⟩
        = Engine.resolve
          ⟨fun i => if i = t then some ⟨etx, true⟩ else s.tx_ledger i,
            AccountsRepository.set s.accounts c { s.accounts c with
              available_balance := (s.accounts c).available_balance - a
              held_balance := (s.accounts c).held_balance + a }⟩
          ⟨TxType.resolve, c, t, amtR⟩ from rfl, hr]
    rw [TransactionLedger.append_of_isSome (by simp)]
  simp only [Engine.process, hstep1, hstep2]
  refine congrArg some ?_
  show EngineState.mk _ _ = EngineState.mk s.tx_ledger s.accounts
  refine congrArg₂ EngineState.mk ?_ ?_
  · funext i
    by_cases hit : i = t
    · subst hit
      rw [if_pos rfl, he]
    · simp [hit]
  · funext k
    by_cases hk : k = c
    · subst hk
      simp only [AccountsRepository.set, if_pos]
      apply Account.ext <;> simp <;> try ring
    · simp [AccountsRepository.set, hk]

/-- Claim C9: a successful Chargeback never clears the disputed flag of the
referenced record — `Engine::chargeback` never calls `undispute_tx` — and
because the chargeback locks the account, no later instruction can clear it
either (a Resolve on it fails with `LockedAccount` before reaching
`undispute_tx`): for the whole rest of the run the record stays recorded and
disputed.  Stated over the run's observable outcome: whatever state the rest
of the run reaches, the entry under the charged-back id is still the disputed
record. -/
theorem c9_chargeback_disputed_persists (s : EngineState) (t : TxId) (c : ClientId)
    (etx : Transaction) (a : ℚ) (amt : Option ℚ) (rest : List Transaction)
    (hwf : ∀ k, (s.accounts k).client_id = k)
    (he : s.tx_ledger t = some ⟨etx, true⟩)
    (hec : etx.account_id = c)
    (ha : etx.amount = some a)
    (hnl : (s.accounts c).locked = false)
    (hheld : a ≤ (s.accounts c).held_balance) :
    ((Engine.step s ⟨TxType.chargeback, c, t, amt⟩ >>= fun s1 =>
        Engine.process s1 rest).map fun s2 => s2.tx_ledger t)
      = ((Engine.step s ⟨TxType.chargeback, c, t, amt⟩ >>= fun s1 =>
        Engine.process s1 rest).map fun _ => some ⟨etx, true⟩) := by
  have ha2 : (s.accounts c).chargeback a = Except.ok
      { s.accounts c with
          held_balance := (s.accounts c).held_balance - a
          total_balance := (s.accounts c).total_balance - a
          locked := true } := by
    simp [Account.chargeback, Account.is_locked, Account.has_sufficient_hold_balande, hnl,
      not_lt.mpr hheld]
  have hcb : Engine.chargeback s ⟨TxType.chargeback, c, t, amt⟩ = some
      ⟨s.tx_ledger, s.accounts.set c { s.accounts c with
          held_balance := (s.accounts c).held_balance - a
          total_balance := (s.accounts c).total_balance - a
          locked := true }⟩ :=
    Engine.chargeback_success he (hec.trans (hwf c).symm) ha ha2
  have hstep : Engine.step s ⟨TxType.chargeback, c, t, amt⟩ = some
      ⟨s.tx_ledger, s.accounts.set c { s.accounts c with
          held_balance := (s.accounts c).held_balance - a
          total_balance := (s.accounts c).total_balance - a
          locked := true }⟩ := by
    simp only [Engine.step,
      show Engine.dispatch s ⟨TxType.chargeback, c, t, amt⟩
          = Engine.chargeback s ⟨TxType.chargeback, c, t, amt⟩ from rfl, hcb]
    rw [TransactionLedger.append_of_isSome (by simp [he])]
  rw [hstep]
  show (Engine.process
      ⟨s.tx_ledger, s.accounts.set c { s.accounts c with
          held_balance := (s.accounts c).held_balance - a
          total_balance := (s.accounts c).total_balance - a
          locked := true }⟩ rest).map (fun s2 => s2.tx_ledger t)
    = (Engine.process
      ⟨s.tx_ledger, s.accounts.set c { s.accounts c with
          held_balance := (s.accounts c).held_balance - a
          total_balance := (s.accounts c).total_balance - a
          locked := true }⟩ rest).map (fun _ => some ⟨etx, true⟩)
  cases hp : Engine.process
      ⟨s.tx_ledger, s.accounts.set c { s.accounts c with
          held_balance := (s.accounts c).held_balance - a
          total_balance := (s.accounts c).total_balance - a
          locked := true }⟩ rest with
  | none => rfl
  | some s2 =>
      have hwf1 : ∀ k, ((AccountsRepository.set s.accounts c { s.accounts c with
          held_balance := (s.accounts c).held_balance - a
          total_balance := (s.accounts c).total_balance - a
          locked := true }) k).client_id = k := by
        intro k
        by_cases hk : k = c
        · subst hk
          simp only [AccountsRepository.set, if_pos]
          exact hwf k
        · simp only [AccountsRepository.set, if_neg hk]
          exact hwf k
      have hlk1 : ((AccountsRepository.set s.accounts c { s.accounts c with
          held_balance := (s.accounts c).held_balance - a
          total_balance := (s.accounts c).total_balance - a
          locked := true }) c).locked = true := by
        simp [AccountsRepository.set]
      obtain ⟨-, -, hent⟩ :=
        Engine.process_facts rfl hec rest
          ⟨s.tx_ledger, s.accounts.set c { s.accounts c with
              held_balance := (s.accounts c).held_balance - a
              total_balance := (s.accounts c).total_balance - a
              locked := true }⟩ s2 hwf1 hlk1 he hp
      show some (s2.tx_ledger t) = some (some ⟨etx, true⟩)
      rw [hent]

/-! ### Evaluation of the IEEE f64 arithmetic at the failing traces -/

lemma roundF64_zero : roundF64 0 = 0 := by
  norm_num [roundF64]

lemma roundF64_one : roundF64 1 = 1 := by
  norm_num [roundF64, ratExp2, roundTiesEven, Nat.log2]

lemma roundF64_two : roundF64 2 = 2 := by
  norm_num [roundF64, ratExp2, roundTiesEven, Nat.log2]

/-- `2^53 + 4` is exactly representable: rounding keeps it. -/
lemma roundF64_id996 : roundF64 9007199254740996 = 9007199254740996 := by
  norm_num [roundF64, ratExp2, roundTiesEven, Nat.log2]

/-- `2^53 + 3` is a tie between `2^53 + 2` and `2^53 + 4`; ties-to-even
rounds UP to `2^53 + 4` (even 53-bit significand). -/
lemma roundF64_up995 : roundF64 9007199254740995 = 9007199254740996 := by
  norm_num [roundF64, ratExp2, roundTiesEven, Nat.log2]

/-- `2^53 + 1` is a tie between `2^53` and `2^53 + 2`; ties-to-even rounds
DOWN to `2^53`. -/
lemma roundF64_down993 : roundF64 9007199254740993 = 9007199254740992 := by
  norm_num [roundF64, ratExp2, roundTiesEven, Nat.log2]

lemma f64add_zero_996 : f64add 0 9007199254740996 = 9007199254740996 := by
  show roundF64 ((0 : ℚ) + 9007199254740996) = 9007199254740996
  rw [show (0 : ℚ) + 9007199254740996 = 9007199254740996 by norm_num]
  exact roundF64_id996

lemma f64sub_996_one : f64sub 9007199254740996 1 = 9007199254740996 := by
  show roundF64 ((9007199254740996 : ℚ) - 1) = 9007199254740996
  rw [show (9007199254740996 : ℚ) - 1 = 9007199254740995 by norm_num]
  exact roundF64_up995

lemma f64add_zero_one : f64add 0 1 = 1 := by
  show roundF64 ((0 : ℚ) + 1) = 1
  rw [show (0 : ℚ) + 1 = 1 by norm_num]
  exact roundF64_one

lemma f64add_one_one : f64add 1 1 = 2 := by
  show roundF64 ((1 : ℚ) + 1) = 2
  rw [show (1 : ℚ) + 1 = 2 by norm_num]
  exact roundF64_two

lemma f64sub_994_one : f64sub 9007199254740994 1 = 9007199254740992 := by
  show roundF64 ((9007199254740994 : ℚ) - 1) = 9007199254740992
  rw [show (9007199254740994 : ℚ) - 1 = 9007199254740993 by norm_num]
  exact roundF64_down993

lemma f64sub_one_one : f64sub 1 1 = 0 := by
  show roundF64 ((1 : ℚ) - 1) = 0
  rw [show (1 : ℚ) - 1 = 0 by norm_num]
  exact roundF64_zero

lemma f64add_992_one : f64add 9007199254740992 1 = 9007199254740992 := by
  show roundF64 ((9007199254740992 : ℚ) + 1) = 9007199254740992
  rw [show (9007199254740992 : ℚ) + 1 = 9007199254740993 by norm_num]
  exact roundF64_down993

/-- Claim C1 (code bug): with the source's IEEE f64 balances the invariant
`total == available + held` is violated by an all-successful trace.
Depositing `9007199254740996.0` (`2^53 + 4`) and then disputing `1.0` twice
— every guard passes, every operation succeeds — leaves
`total = 9007199254740996` while `available + held = 9007199254740998`: each
dispute's subtraction of `1.0` rounds back up (ties to even) while the held
addition is exact, conjuring funds.  The spec requires the invariant to hold
checkably (§4.1) and prescribes fixed-point arithmetic exactly to avoid this
drift (§5, §9); under exact arithmetic the invariant does hold
(`accountInv_runAccountOps`). -/
theorem c1_f64_invariant_violation :
    runAccountOpsF (Account.new 1)
        [(AccountOp.deposit, 9007199254740996), (AccountOp.dispute, 1),
          (AccountOp.dispute, 1)]
      = { client_id := 1, available_balance := 9007199254740996, held_balance := 2,
          total_balance := 9007199254740996, locked := false } ∧
    ¬ AccountInv (runAccountOpsF (Account.new 1)
        [(AccountOp.deposit, 9007199254740996), (AccountOp.dispute, 1),
          (AccountOp.dispute, 1)]) := by
  have hdep : Account.depositF (Account.new 1) 9007199254740996
      = Except.ok ⟨1, 9007199254740996, 0, 9007199254740996, false⟩ := by
    simp [Account.depositF, Account.new, Account.is_locked, f64add_zero_996]
  have hdis1 : Account.disputeF ⟨1, 9007199254740996, 0, 9007199254740996, false⟩ 1
      = Except.ok ⟨1, 9007199254740996, 1, 9007199254740996, false⟩ := by
    norm_num [Account.disputeF, Account.is_locked, Account.has_sufficient_funds,
      f64sub_996_one, f64add_zero_one]
  have hdis2 : Account.disputeF ⟨1, 9007199254740996, 1, 9007199254740996, false⟩ 1
      = Except.ok ⟨1, 9007199254740996, 2, 9007199254740996, false⟩ := by
    norm_num [Account.disputeF, Account.is_locked, Account.has_sufficient_funds,
      f64sub_996_one, f64add_one_one]
  have hrun : runAccountOpsF (Account.new 1)
      [(AccountOp.deposit, 9007199254740996), (AccountOp.dispute, 1),
        (AccountOp.dispute, 1)]
      = { client_id := 1, available_balance := 9007199254740996, held_balance := 2,
          total_balance := 9007199254740996, locked := false } := by
    rw [runAccountOpsF]
    rw [show applyAccountOpF (AccountOp.deposit, (9007199254740996 : ℚ)).1 (Account.new 1)
          (AccountOp.deposit, (9007199254740996 : ℚ)).2
        = Account.depositF (Account.new 1) 9007199254740996 from rfl, hdep]
    rw [runAccountOpsF]
    rw [show applyAccountOpF (AccountOp.dispute, (1 : ℚ)).1
          (⟨1, 9007199254740996, 0, 9007199254740996, false⟩ : Account)
          (AccountOp.dispute, (1 : ℚ)).2
        = Account.disputeF ⟨1, 9007199254740996, 0, 9007199254740996, false⟩ 1 from rfl,
      hdis1]
    rw [runAccountOpsF]
    rw [show applyAccountOpF (AccountOp.dispute, (1 : ℚ)).1
          (⟨1, 9007199254740996, 1, 9007199254740996, false⟩ : Account)
          (AccountOp.dispute, (1 : ℚ)).2
        = Account.disputeF ⟨1, 9007199254740996, 1, 9007199254740996, false⟩ 1 from rfl,
      hdis2]
    rw [runAccountOpsF]
  refine ⟨hrun, ?_⟩
  rw [hrun]
  intro hinv
  have h1 := hinv.1
  norm_num at h1

/-- Claim C8 (code bug): under the source's IEEE f64 arithmetic a
successfully applied Dispute followed by a Resolve of the same id and client
does NOT restore the balances.  From an unlocked account with
`available = 9007199254740994.0` (`2^53 + 2`) and a recorded deposit of
`1.0` under id 2 — every hypothesis of the round-trip claim holds — the
dispute's subtraction rounds `2^53 + 1` down to `2^53` and the resolve's
addition rounds `2^53 + 1` down again, ending at
`available = 9007199254740992.0` with the flag duly cleared: a net loss of
`2.0` instead of a restoration.  Under exact arithmetic the round trip is
the identity (`Engine.dispute_resolve_roundtrip_exact`). -/
theorem c8_f64_roundtrip_violation :
    (EngineF.process c8FailState
        [⟨TxType.dispute, 1, 2, none⟩, ⟨TxType.resolve, 1, 2, none⟩]).map
        (fun s => ((s.accounts 1).available_balance, (s.accounts 1).held_balance,
          (s.accounts 1).total_balance, (s.tx_ledger 2).map (fun e2 => e2.is_dispute)))
      = some (9007199254740992, 0, 9007199254740994, some false) ∧
    (c8FailState.accounts 1).available_balance = 9007199254740994 := by
  have hd1 : Account.disputeF ⟨1, 9007199254740994, 0, 9007199254740994, false⟩ 1
      = Except.ok ⟨1, 9007199254740992, 1, 9007199254740994, false⟩ := by
    norm_num [Account.disputeF, Account.is_locked, Account.has_sufficient_funds,
      f64sub_994_one, f64add_zero_one]
  have hr1 : Account.resolveF ⟨1, 9007199254740992, 1, 9007199254740994, false⟩ 1
      = Except.ok ⟨1, 9007199254740992, 0, 9007199254740994, false⟩ := by
    norm_num [Account.resolveF, Account.is_locked, Account.has_sufficient_hold_balande,
      f64sub_one_one, f64add_992_one]
  constructor
  · simp [EngineF.process, EngineF.step, EngineF.dispatch, EngineF.dispute,
      EngineF.resolve, c8FailState, TransactionLedger.get, TransactionLedger.append,
      TransactionLedger.dispute_tx, TransactionLedger.undispute_tx,
      AccountsRepository.get_or_create, AccountsRepository.set, hd1, hr1]
  · simp [c8FailState]

/-- Witness for C9: charge back the disputed deposit (id 2, amount 3) of
client 1, then attempt a Resolve of the same id: the record stays disputed. -/
theorem c9_chargeback_disputed_persists_witness :
    ((Engine.step chargebackReadyState ⟨TxType.chargeback, 1, 2, none⟩ >>= fun s1 =>
        Engine.process s1 [⟨TxType.resolve, 1, 2, none⟩]).map fun s2 => s2.tx_ledger 2)
      = ((Engine.step chargebackReadyState ⟨TxType.chargeback, 1, 2, none⟩ >>= fun s1 =>
        Engine.process s1 [⟨TxType.resolve, 1, 2, none⟩]).map
          fun _ => some ⟨⟨TxType.deposit, 1, 2, some 3⟩, true⟩) :=
  c9_chargeback_disputed_persists chargebackReadyState 2 1 ⟨TxType.deposit, 1, 2, some 3⟩
    3 none [⟨TxType.resolve, 1, 2, none⟩]
    (by intro k; by_cases hk : k = 1 <;> simp [chargebackReadyState, Account.new, hk])
    rfl rfl rfl rfl (by norm_num [chargebackReadyState])

end TxEngine
